import Mathlib

/-!
Verification of the liqo advertisement broadcaster
(src/internal/advertisementoperator/broadcaster/broadcaster.go) against its
natural-language specification.  The Go code is shallowly embedded: resource
lists (Go maps from resource-class name to arbitrary-precision quantity)
become total functions from names to integers with absent classes read as 0,
the remote object store becomes an explicit state record with the
get/create/update/delete semantics of spec section 6, and every fallible
operation returns an Except value.
-/

/-- Resource-class names (cpu, memory, pods, ...). -/
abbrev ResourceName := String

/-- A resource list: per-class quantities.  The Go code uses maps with
add-if-present-else-copy accumulation; the total-function model with default
0 has exactly that addition behaviour. -/
abbrev ResourceList := ResourceName → Int

/-- The everywhere-zero resource list (the empty Go map). -/
def zeroRL : ResourceList := fun _ => 0

/-- Pointwise sum of two resource lists: the function-model counterpart of
addResourceLists (broadcaster.go 457-469) and of the per-key accumulation in
getPodsTotalRequestsAndLimits. -/
def addRL (a b : ResourceList) : ResourceList := fun r => a r + b r

/-- Modelled from the spec: the key of the outgoing-offload marker label
(forge.LiqoOutgoingKey), whose literal value lives outside src/.  Only
presence of the key matters to the accounting code. -/
def LiqoOutgoingKey : String := "virtualkubelet.liqo.io/outgoing"

/-- A pod as the accounting code sees it: the node it is scheduled on, the
label keys it carries (a nil Go label map carries no keys), and its per-pod
aggregated requests and limits (resourcehelper.PodRequestsAndLimits is an
external collaborator, so its per-pod result is taken as data). -/
structure Pod where
  nodeName : String
  labels : List String
  requests : ResourceList
  limits : ResourceList

/-- The zero-value corev1.Pod used by GetAllPodsResources to overwrite
excluded pods: no node, no labels, zero requests and limits. -/
def emptyPod : Pod where
  nodeName := ""
  labels := []
  requests := zeroRL
  limits := zeroRL

/-- The prefix test strings.HasPrefix, computed over the character lists of
the two strings (equivalent, and reducible on concrete inputs). -/
def hasPref (p s : String) : Bool := p.data.isPrefixOf s.data

/-- The exclusion test of GetAllPodsResources (broadcaster.go 404-413): a pod
is overwritten when its node name starts with "liqo-" (it is scheduled on a
virtual node), or otherwise when its label map carries the outgoing-offload
key. -/
def podExcluded (pod : Pod) : Bool :=
  if hasPref "liqo-" pod.nodeName then true
  else pod.labels.contains LiqoOutgoingKey

/-- getPodsTotalRequestsAndLimits (broadcaster.go 418-441): fold over the pod
list, accumulating every pod's requests and limits per resource class. -/
def getPodsTotalRequestsAndLimits (podList : List Pod) : ResourceList × ResourceList :=
  podList.foldl (fun acc pod => (addRL acc.1 pod.requests, addRL acc.2 pod.limits))
    (zeroRL, zeroRL)

/-- GetAllPodsResources (broadcaster.go 401-416): overwrite every excluded pod
with the empty pod record, then total requests and limits over the whole
list. -/
def GetAllPodsResources (nodeNonTerminatedPodsList : List Pod) : ResourceList × ResourceList :=
  getPodsTotalRequestsAndLimits
    (nodeNonTerminatedPodsList.map (fun pod => if podExcluded pod then emptyPod else pod))

/-- A container image entry of the advertisement: a reference and a size. -/
structure ContainerImage where
  reference : String
  sizeBytes : Int
deriving DecidableEq, Repr

/-- A cluster node as the broadcaster reads it: name, allocatable resources
and the container images present on it. -/
structure Node where
  name : String
  allocatable : ResourceList
  images : List ContainerImage

/-- Modelled from the spec: GetNodeImages is code of this repository that is
not under src/.  Spec section 3, ImageInventory: an ordered sequence of
(image reference, size) pairs, deduplicated by reference, collected per
physical node.  The first occurrence of each reference on the node is kept. -/
def GetNodeImages (node : Node) : List ContainerImage :=
  node.images.foldl
    (fun acc img => if acc.any (fun i => i.reference == img.reference) then acc else acc ++ [img])
    []

/-- GetClusterResources (broadcaster.go 443-455): start from the empty
availability and image inventory; for every node, add its allocatable
resources (addResourceLists) and append its per-node image list. -/
def GetClusterResources (nodes : List Node) : ResourceList × List ContainerImage :=
  nodes.foldl (fun acc node => (addRL acc.1 node.allocatable, acc.2 ++ GetNodeImages node))
    (zeroRL, [])

/-- Per-class total of the requests of a list of pods, the filter-style
specification the aggregation is compared against. -/
def sumRequests (pods : List Pod) (r : ResourceName) : Int :=
  (pods.map (fun p => p.requests r)).sum

/-- Per-class total of the limits of a list of pods. -/
def sumLimits (pods : List Pod) (r : ResourceName) : Int :=
  (pods.map (fun p => p.limits r)).sum

/-- The virtual-node part of the exclusion test alone: the pod is scheduled on
a node whose name starts with "liqo-". -/
def podOnVirtualNode (pod : Pod) : Bool := hasPref "liqo-" pod.nodeName

theorem getPodsTotal_aux (pods : List Pod) (a : ResourceList × ResourceList) (r : ResourceName) :
    (pods.foldl (fun acc pod => (addRL acc.1 pod.requests, addRL acc.2 pod.limits)) a).1 r
      = a.1 r + sumRequests pods r
    ∧ (pods.foldl (fun acc pod => (addRL acc.1 pod.requests, addRL acc.2 pod.limits)) a).2 r
      = a.2 r + sumLimits pods r := by
  induction pods generalizing a with
  | nil => simp [sumRequests, sumLimits]
  | cons p ps ih =>
      have h := ih (addRL a.1 p.requests, addRL a.2 p.limits)
      constructor
      · calc (List.foldl (fun acc pod => (addRL acc.1 pod.requests, addRL acc.2 pod.limits))
              (addRL a.1 p.requests, addRL a.2 p.limits) ps).1 r
            = addRL a.1 p.requests r + sumRequests ps r := h.1
          _ = a.1 r + sumRequests (p :: ps) r := by
              simp [addRL, sumRequests]; ring
      · calc (List.foldl (fun acc pod => (addRL acc.1 pod.requests, addRL acc.2 pod.limits))
              (addRL a.1 p.requests, addRL a.2 p.limits) ps).2 r
            = addRL a.2 p.limits r + sumLimits ps r := h.2
          _ = a.2 r + sumLimits (p :: ps) r := by
              simp [addRL, sumLimits]; ring

theorem getPodsTotal_eq_sum (pods : List Pod) (r : ResourceName) :
    (getPodsTotalRequestsAndLimits pods).1 r = sumRequests pods r
    ∧ (getPodsTotalRequestsAndLimits pods).2 r = sumLimits pods r := by
  have h := getPodsTotal_aux pods (zeroRL, zeroRL) r
  simpa [getPodsTotalRequestsAndLimits, zeroRL] using h

theorem sumRequests_overwrite_eq_filter (pods : List Pod) (r : ResourceName) :
    sumRequests (pods.map (fun p => if podExcluded p then emptyPod else p)) r
      = sumRequests (pods.filter (fun p => !podExcluded p)) r := by
  induction pods with
  | nil => rfl
  | cons p ps ih =>
      by_cases h : podExcluded p <;>
        simp [sumRequests, List.filter_cons, h, emptyPod, zeroRL] at * <;> omega

theorem sumLimits_overwrite_eq_filter (pods : List Pod) (r : ResourceName) :
    sumLimits (pods.map (fun p => if podExcluded p then emptyPod else p)) r
      = sumLimits (pods.filter (fun p => !podExcluded p)) r := by
  induction pods with
  | nil => rfl
  | cons p ps ih =>
      by_cases h : podExcluded p <;>
        simp [sumLimits, List.filter_cons, h, emptyPod, zeroRL] at * <;> omega

theorem sumRequests_split (pods : List Pod) (r : ResourceName) :
    sumRequests (pods.filter (fun p => !podExcluded p)) r
      + sumRequests (pods.filter (fun p => podExcluded p)) r
      = sumRequests pods r := by
  induction pods with
  | nil => rfl
  | cons p ps ih =>
      by_cases h : podExcluded p <;>
        simp [sumRequests, List.filter_cons, h] at * <;> omega

/-- C2: for every pod list, GetAllPodsResources excludes from both the
requests and the limits totals exactly the pods that are scheduled on a
virtual node (node name starting with "liqo-") or that carry the
outgoing-offload marker label; every other pod's requests and limits are
included: per resource class, the totals equal the sums over the
non-excluded pods. -/
theorem getAllPodsResources_excludes_exactly (pods : List Pod) (r : ResourceName) :
    (GetAllPodsResources pods).1 r = sumRequests (pods.filter (fun p => !podExcluded p)) r
    ∧ (GetAllPodsResources pods).2 r = sumLimits (pods.filter (fun p => !podExcluded p)) r := by
  have h := getPodsTotal_eq_sum
    (pods.map (fun pod => if podExcluded pod then emptyPod else pod)) r
  constructor
  · rw [GetAllPodsResources, h.1, sumRequests_overwrite_eq_filter]
  · rw [GetAllPodsResources, h.2, sumLimits_overwrite_eq_filter]

/-- A pod scheduled on a physical node that carries the outgoing-offload
marker label and requests one unit of cpu. -/
def offloadedPhysicalPod : Pod where
  nodeName := "worker-1"
  labels := [LiqoOutgoingKey]
  requests := fun r => if r = "cpu" then 1 else 0
  limits := zeroRL

/-- C5 counterexample: for the one-pod list holding a pod that runs on a
physical node but carries the outgoing-offload label, the requests total
after the overwrite is 0, while consumed-requests of the whole list minus
consumed-requests of the pods on virtual nodes is 1: the claimed equality
fails. -/
theorem getAllPodsResources_minus_virtual_counterexample :
    (GetAllPodsResources [offloadedPhysicalPod]).1 "cpu"
      ≠ sumRequests [offloadedPhysicalPod] "cpu"
        - sumRequests ([offloadedPhysicalPod].filter podOnVirtualNode) "cpu" := by
  decide

/-- C5 (amended): for every pod list P and resource class, the requests total
computed after overwriting excluded pods with the empty pod record (as
GetAllPodsResources does) equals the requests total over P with the excluded
pods removed, and equals consumed-requests of P minus consumed-requests of
the excluded pods (those on virtual nodes or carrying the outgoing-offload
marker); the overwrite mechanism is equivalent to filtering for summation. -/
theorem getAllPodsResources_overwrite_eq_filter (pods : List Pod) (r : ResourceName) :
    (GetAllPodsResources pods).1 r = sumRequests (pods.filter (fun p => !podExcluded p)) r
    ∧ (GetAllPodsResources pods).1 r
        = sumRequests pods r - sumRequests (pods.filter (fun p => podExcluded p)) r := by
  have h := (getPodsTotal_eq_sum
    (pods.map (fun pod => if podExcluded pod then emptyPod else pod)) r).1
  have h1 : (GetAllPodsResources pods).1 r
      = sumRequests (pods.filter (fun p => !podExcluded p)) r := by
    rw [GetAllPodsResources, h, sumRequests_overwrite_eq_filter]
  have h2 := sumRequests_split pods r
  exact ⟨h1, by omega⟩

/-- An image inventory is deduplicated by reference when no two entries share
the same image reference. -/
abbrev dedupedByReference (l : List ContainerImage) : Prop :=
  l.Pairwise (fun a b => a.reference ≠ b.reference)

/-- A physical node hosting one image. -/
def imgNodeA : Node where
  name := "worker-a"
  allocatable := zeroRL
  images := [{ reference := "registry.local/app", sizeBytes := 100 }]

/-- A second physical node hosting the same image. -/
def imgNodeB : Node where
  name := "worker-b"
  allocatable := zeroRL
  images := [{ reference := "registry.local/app", sizeBytes := 100 }]

/-- C6 counterexample: two physical nodes hosting the same image yield a
cluster image inventory with two entries carrying the same reference, so the
inventory returned by GetClusterResources is not deduplicated by reference
across nodes. -/
theorem getClusterResources_images_counterexample :
    ¬ dedupedByReference (GetClusterResources [imgNodeA, imgNodeB]).2 := by
  decide

theorem getNodeImages_foldl_dedup (imgs : List ContainerImage) (acc : List ContainerImage)
    (h : dedupedByReference acc) :
    dedupedByReference (imgs.foldl
      (fun acc img =>
        if acc.any (fun i => i.reference == img.reference) then acc else acc ++ [img])
      acc) := by
  induction imgs generalizing acc with
  | nil => exact h
  | cons im it ih =>
      simp only [List.foldl_cons]
      by_cases hc : (acc.any (fun i => i.reference == im.reference)) = true
      · rw [if_pos hc]
        exact ih acc h
      · rw [if_neg hc]
        apply ih
        refine List.pairwise_append.mpr ⟨h, List.pairwise_singleton _ _, ?_⟩
        intro a ha b hb heq
        apply hc
        rw [List.any_eq_true]
        rcases List.mem_singleton.mp hb with rfl
        exact ⟨a, ha, by simp [heq]⟩

theorem getClusterResources_images_aux (nodes : List Node) (a : ResourceList × List ContainerImage) :
    (nodes.foldl (fun acc node => (addRL acc.1 node.allocatable, acc.2 ++ GetNodeImages node)) a).2
      = a.2 ++ (nodes.map GetNodeImages).flatten := by
  induction nodes generalizing a with
  | nil => simp
  | cons n ns ih =>
      simp only [List.foldl_cons, List.map_cons, List.flatten]
      rw [ih]
      simp [List.append_assoc]

/-- C6 (amended): the image inventory returned by GetClusterResources is the
concatenation of the per-node image lists; each per-node list is deduplicated
by reference within its node, but the same reference may appear once per node
hosting it, so deduplication is per node, not across nodes. -/
theorem getClusterResources_images_per_node (nodes : List Node) :
    (GetClusterResources nodes).2 = (nodes.map GetNodeImages).flatten
    ∧ ∀ node : Node, dedupedByReference (GetNodeImages node) := by
  constructor
  · have h := getClusterResources_images_aux nodes (zeroRL, [])
    simpa [GetClusterResources] using h
  · intro node
    exact getNodeImages_foldl_dedup node.images [] (List.Pairwise.nil)

theorem getClusterResources_alloc_aux (nodes : List Node)
    (a : ResourceList × List ContainerImage) (r : ResourceName) :
    (nodes.foldl (fun acc node => (addRL acc.1 node.allocatable, acc.2 ++ GetNodeImages node)) a).1 r
      = a.1 r + (nodes.map (fun n => n.allocatable r)).sum := by
  induction nodes generalizing a with
  | nil => simp
  | cons n ns ih =>
      simp only [List.foldl_cons, List.map_cons, List.sum_cons]
      rw [ih]
      simp [addRL]
      ring

theorem getClusterResources_alloc (nodes : List Node) (r : ResourceName) :
    (GetClusterResources nodes).1 r = (nodes.map (fun n => n.allocatable r)).sum := by
  have h := getClusterResources_alloc_aux nodes (zeroRL, []) r
  simpa [GetClusterResources, zeroRL] using h

/-- Modelled from the spec: ComputeAnnouncedResources is code of this
repository that is not under src/ (GetResourcesForAdv calls it at
broadcaster.go 298-299).  Spec section 4.1: compute availability per resource
class as allocatable * sharingPercentage / 100 - consumed-requests, never
going below zero; the allocatable aggregation and the image inventory reuse
GetClusterResources from the source. -/
def ComputeAnnouncedResources (physicalNodes : List Node) (reqs : ResourceList)
    (sharingPercentage : Int) : ResourceList × List ContainerImage :=
  ((fun r => max 0 ((GetClusterResources physicalNodes).1 r * sharingPercentage / 100 - reqs r)),
   (GetClusterResources physicalNodes).2)

/-- C3: for every physical-node snapshot, consumed-requests snapshot and
sharing percentage between 0 and 100, the announced availability of every
resource class equals max 0 (allocatable * pct / 100 - consumed), where
allocatable is the sum of the physical nodes' allocatable quantities; in
particular the availability is never negative. -/
theorem computeAnnouncedResources_availability (nodes : List Node) (reqs : ResourceList)
    (pct : Int) (r : ResourceName) (h0 : 0 ≤ pct) (h100 : pct ≤ 100) :
    (ComputeAnnouncedResources nodes reqs pct).1 r
      = max 0 ((nodes.map (fun n => n.allocatable r)).sum * pct / 100 - reqs r)
    ∧ 0 ≤ (ComputeAnnouncedResources nodes reqs pct).1 r := by
  constructor
  · simp only [ComputeAnnouncedResources, getClusterResources_alloc]
  · exact le_max_left 0 _

/-- A physical node with 4 cpu for the C3 witness (spec scenario A). -/
def fourCpuNode : Node where
  name := "worker-1"
  allocatable := fun r => if r = "cpu" then 4 else 0
  images := []

/-- C3 witness: at the concrete snapshot of spec scenario A (one physical
node with cpu 4, no consumption, sharing percentage 50) the hypotheses hold
and the availability evaluates to max 0 (4 * 50 / 100 - 0) = 2. -/
theorem computeAnnouncedResources_availability_witness :
    (0 ≤ (50:Int) ∧ (50:Int) ≤ 100)
    ∧ ((ComputeAnnouncedResources [fourCpuNode] zeroRL 50).1 "cpu"
        = max 0 (([fourCpuNode].map (fun n => n.allocatable "cpu")).sum * 50 / 100 - zeroRL "cpu")
      ∧ 0 ≤ (ComputeAnnouncedResources [fourCpuNode] zeroRL 50).1 "cpu")
    ∧ (ComputeAnnouncedResources [fourCpuNode] zeroRL 50).1 "cpu" = 2 := by
  refine ⟨⟨by decide, by decide⟩, ?_, by decide⟩
  exact computeAnnouncedResources_availability [fourCpuNode] zeroRL 50 "cpu" (by decide) (by decide)

/-- An owner reference: the structural link that ties a dependent record to
its owner for garbage collection. -/
structure OwnerReference where
  apiVersion : String
  kind : String
  name : String
  uid : String
deriving DecidableEq, Repr

/-- Object metadata of a remote record: name, namespace and the
identity/version fields the store maintains, plus owner references. -/
structure ObjectMeta where
  name : String
  namespaceName : String
  resourceVersion : String
  uid : String
  ownerReferences : List OwnerReference
deriving DecidableEq, Repr

/-- A credential secret: metadata plus the kubeconfig blob kept under the
fixed data field. -/
structure Secret where
  meta : ObjectMeta
  kubeconfig : String
deriving DecidableEq, Repr

/-- One entry of the advertisement's limit range (Go LimitRangeItem); the
source fills only Type (empty) and Max, leaving the other fields nil. -/
structure LimitRangeItem where
  type : String
  maxRL : ResourceList

/-- The advertisement spec as the source populates it (broadcaster.go
236-266). -/
structure AdvertisementSpec where
  clusterId : String
  images : List ContainerImage
  limitRangeLimits : List LimitRangeItem
  resourceQuotaHard : ResourceList
  labels : List (String × String)
  neighbors : String → Option ResourceList
  prices : List (String × Int)
  kubeConfigRefNamespace : String
  kubeConfigRefName : String
  timestamp : Int
  timeToLive : Int

/-- An advertisement record: type metadata, object metadata and spec. -/
structure Advertisement where
  kind : String
  apiVersion : String
  meta : ObjectMeta
  spec : AdvertisementSpec

/-- Modelled from the spec: pkg.AdvertisementPrefix lives outside src/; spec
sections 4.4 and 6 give the deterministic advertisement name
adv-(home cluster id). -/
def advNamePref : String := "adv-"

/-- The broadcaster state the embedded operations read: home cluster
identity, peer identity and the credential secret prepared for the peer. -/
structure Broadcaster where
  homeClusterID : String
  foreignClusterID : String
  kubeconfigSecretForForeign : Secret

/-- AdvResources (broadcaster.go 47-55): all resources to be returned in an
advertisement. -/
structure AdvResources where
  physicalNodes : List Node
  virtualNodes : List Node
  availability : ResourceList
  limits : ResourceList
  images : List ContainerImage
  labels : List (String × String)

/-- The neighbor map built by CreateAdvertisement (broadcaster.go 227-230):
each virtual node's name is mapped to its allocatable resources, later list
entries overwriting earlier ones exactly as repeated Go map stores do. -/
def buildNeighbors (vnodes : List Node) : String → Option ResourceList :=
  vnodes.foldl (fun acc v => fun n => if n = v.name then some v.allocatable else acc n)
    (fun _ => none)

/-- CreateAdvertisement (broadcaster.go 222-269).  ComputePrices lives
outside src/ and is a pluggable deterministic policy (spec section 4.3), so
it is passed as a function argument; the source reads the clock twice, once
for Timestamp (line 264) and once for TimeToLive (line 265), and those two
readings are the arguments now1 and now2, in minutes on an abstract
timeline. -/
def CreateAdvertisement (b : Broadcaster)
    (computePrices : List ContainerImage → List (String × Int))
    (now1 now2 : Int) (advRes : AdvResources) : Advertisement where
  kind := ""
  apiVersion := ""
  meta :=
    { name := advNamePref ++ b.homeClusterID
      namespaceName := ""
      resourceVersion := ""
      uid := ""
      ownerReferences := [] }
  spec :=
    { clusterId := b.homeClusterID
      images := advRes.images
      limitRangeLimits := [{ type := "", maxRL := advRes.limits }]
      resourceQuotaHard := advRes.availability
      labels := advRes.labels
      neighbors := buildNeighbors advRes.virtualNodes
      prices := computePrices advRes.images
      kubeConfigRefNamespace := b.kubeconfigSecretForForeign.meta.namespaceName
      kubeConfigRefName := b.kubeconfigSecretForForeign.meta.name
      timestamp := now1
      timeToLive := now2 + 30 }

theorem buildNeighbors_aux_notmem (vnodes : List Node) (f : String → Option ResourceList)
    (n : String) (h : ∀ v ∈ vnodes, v.name ≠ n) :
    (vnodes.foldl (fun acc v => fun m => if m = v.name then some v.allocatable else acc m) f) n
      = f n := by
  induction vnodes generalizing f with
  | nil => rfl
  | cons w ws ih =>
      simp only [List.foldl_cons]
      rw [ih]
      · have hw := h w (List.mem_cons_self w ws)
        exact if_neg (fun hn : n = w.name => hw hn.symm)
      · intro v hv
        exact h v (List.mem_cons_of_mem w hv)

theorem buildNeighbors_aux_mem (vnodes : List Node) (f : String → Option ResourceList)
    (hnodup : (vnodes.map Node.name).Nodup) (v : Node) (hv : v ∈ vnodes) :
    (vnodes.foldl (fun acc v => fun m => if m = v.name then some v.allocatable else acc m) f) v.name
      = some v.allocatable := by
  induction vnodes generalizing f with
  | nil => cases hv
  | cons w ws ih =>
      simp only [List.foldl_cons]
      rcases List.mem_cons.mp hv with rfl | hmem
      · have hnot : ∀ u ∈ ws, u.name ≠ v.name := by
          intro u hu heq
          have : v.name ∈ ws.map Node.name := heq ▸ List.mem_map_of_mem Node.name hu
          exact (List.nodup_cons.mp hnodup).1 this
        rw [buildNeighbors_aux_notmem ws _ v.name hnot]
        simp
      · exact ih _ (List.nodup_cons.mp hnodup).2 hmem

theorem buildNeighbors_mem (vnodes : List Node) (hnodup : (vnodes.map Node.name).Nodup)
    (v : Node) (hv : v ∈ vnodes) :
    buildNeighbors vnodes v.name = some v.allocatable :=
  buildNeighbors_aux_mem vnodes (fun _ => none) hnodup v hv

/-- A concrete secret for the C7 counterexample broadcaster. -/
def cSecret : Secret where
  meta :=
    { name := "vk-secret-home"
      namespaceName := "liqo-ns"
      resourceVersion := ""
      uid := ""
      ownerReferences := [] }
  kubeconfig := "blob"

/-- A concrete broadcaster for the C7 counterexample. -/
def cBroadcaster : Broadcaster where
  homeClusterID := "home"
  foreignClusterID := "foreign"
  kubeconfigSecretForForeign := cSecret

/-- Empty advertised resources for the C7 counterexample. -/
def emptyAdvRes : AdvResources where
  physicalNodes := []
  virtualNodes := []
  availability := zeroRL
  limits := zeroRL
  images := []
  labels := []

/-- C7 counterexample: the source reads the clock once for the timestamp and
again for the time-to-live; with the first reading 0 and the second 1 the
advertisement's time-to-live is 31 minutes while its timestamp plus 30
minutes is 30, so the time-to-live does not equal the timestamp plus 30
minutes. -/
theorem createAdvertisement_ttl_counterexample :
    (CreateAdvertisement cBroadcaster (fun _ => []) 0 1 emptyAdvRes).spec.timeToLive
      ≠ (CreateAdvertisement cBroadcaster (fun _ => []) 0 1 emptyAdvRes).spec.timestamp + 30 := by
  decide

/-- C7 (amended): for every broadcaster, price policy, pair of clock readings
and resources whose virtual nodes carry pairwise distinct names,
CreateAdvertisement returns an advertisement whose name is the fixed prefix
adv- followed by the home cluster id, whose resource quota hard field equals
the availability envelope, whose single limit-range entry's Max equals the
limits envelope, whose neighbor map sends each virtual node's name to that
node's allocatable resources, and whose time-to-live equals the second clock
reading plus 30 minutes — it equals the timestamp plus 30 minutes exactly
when the two clock readings of the construction coincide. -/
theorem createAdvertisement_shape (b : Broadcaster)
    (computePrices : List ContainerImage → List (String × Int))
    (now1 now2 : Int) (advRes : AdvResources)
    (hnames : (advRes.virtualNodes.map Node.name).Nodup) :
    (CreateAdvertisement b computePrices now1 now2 advRes).meta.name
        = "adv-" ++ b.homeClusterID
    ∧ (CreateAdvertisement b computePrices now1 now2 advRes).spec.resourceQuotaHard
        = advRes.availability
    ∧ (CreateAdvertisement b computePrices now1 now2 advRes).spec.limitRangeLimits
        = [{ type := "", maxRL := advRes.limits }]
    ∧ (∀ v ∈ advRes.virtualNodes,
        (CreateAdvertisement b computePrices now1 now2 advRes).spec.neighbors v.name
          = some v.allocatable)
    ∧ (CreateAdvertisement b computePrices now1 now2 advRes).spec.timestamp = now1
    ∧ (CreateAdvertisement b computePrices now1 now2 advRes).spec.timeToLive = now2 + 30
    ∧ (now1 = now2 →
        (CreateAdvertisement b computePrices now1 now2 advRes).spec.timeToLive
          = (CreateAdvertisement b computePrices now1 now2 advRes).spec.timestamp + 30) := by
  refine ⟨rfl, rfl, rfl, ?_, rfl, rfl, ?_⟩
  · intro v hv
    exact buildNeighbors_mem advRes.virtualNodes hnames v hv
  · intro heq
    simp [CreateAdvertisement, heq]

/-- A virtual node for the C7 witness. -/
def vkNode : Node where
  name := "liqo-vk-1"
  allocatable := fun r => if r = "cpu" then 3 else 0
  images := []

/-- Advertised resources with one virtual node for the C7 witness. -/
def oneVirtualAdvRes : AdvResources where
  physicalNodes := []
  virtualNodes := [vkNode]
  availability := fun r => if r = "cpu" then 2 else 0
  limits := zeroRL
  images := []
  labels := []

/-- C7 witness: at a concrete broadcaster, the trivial price policy, both
clock readings equal to 5 and one distinctly named virtual node, the
hypothesis holds and the built advertisement has name adv-home, the stated
envelope fields, neighbor entry and time-to-live 35 = timestamp 5 + 30. -/
theorem createAdvertisement_shape_witness :
    ((([vkNode].map Node.name).Nodup)
    ∧ (CreateAdvertisement cBroadcaster (fun _ => []) 5 5 oneVirtualAdvRes).meta.name
        = "adv-home"
    ∧ (CreateAdvertisement cBroadcaster (fun _ => []) 5 5 oneVirtualAdvRes).spec.neighbors
        "liqo-vk-1" = some vkNode.allocatable
    ∧ (CreateAdvertisement cBroadcaster (fun _ => []) 5 5 oneVirtualAdvRes).spec.timeToLive
        = (CreateAdvertisement cBroadcaster (fun _ => []) 5 5 oneVirtualAdvRes).spec.timestamp
            + 30) := by
  have h := createAdvertisement_shape cBroadcaster (fun _ => []) 5 5 oneVirtualAdvRes
    (by decide)
  refine ⟨by decide, ?_, ?_, h.2.2.2.2.2.2 rfl⟩
  · exact h.1
  · exact h.2.2.2.1 vkNode (by simp [oneVirtualAdvRes])

/-- Error kinds of the remote object store: not-found and already-exists from
spec section 6, conflict and transient from section 7. -/
inductive StoreError
  | notFound
  | alreadyExists
  | conflict
  | transient
deriving DecidableEq, Repr

/-- The remote object store: the advertisement and secret records currently
held, each record carrying its own name (spec section 6). -/
structure RemoteStore where
  advs : List Advertisement
  secrets : List Secret

/-- Fetch an advertisement by name. -/
def lookupAdv (store : RemoteStore) (n : String) : Option Advertisement :=
  store.advs.find? (fun a => a.meta.name == n)

/-- Fetch a secret by name. -/
def lookupSecret (store : RemoteStore) (n : String) : Option Secret :=
  store.secrets.find? (fun s => s.meta.name == n)

/-- Delete semantics of the store (spec section 6): removing an absent record
yields NotFound. -/
def deleteAdv (store : RemoteStore) (n : String) : Except StoreError RemoteStore :=
  match lookupAdv store n with
  | some _ => .ok { store with advs := store.advs.filter (fun a => !(a.meta.name == n)) }
  | none => .error .notFound

/-- Replace the advertisement stored under a name. -/
def updateAdvStore (store : RemoteStore) (n : String) (newAdv : Advertisement) : RemoteStore :=
  { store with advs := store.advs.map (fun a => if a.meta.name == n then newAdv else a) }

/-- Replace the secret stored under a name. -/
def updateSecretStore (store : RemoteStore) (n : String) (newSec : Secret) : RemoteStore :=
  { store with secrets := store.secrets.map (fun s => if s.meta.name == n then newSec else s) }

/-- NotifyAdvertisementDeletion (broadcaster.go 390-399): delete the
advertisement with the deterministic name on the remote store; any delete
error, the not-found one included, is logged and returned. -/
def NotifyAdvertisementDeletion (b : Broadcaster) (store : RemoteStore) :
    Except StoreError RemoteStore :=
  match deleteAdv store (advNamePref ++ b.homeClusterID) with
  | .error e => .error e
  | .ok store2 => .ok store2

/-- Modelled from the spec: utils.GetOwnerReference lives outside src/; it
builds the ownership link pointing at a record (spec sections 3 and 4.5: an
ownership reference from the secret to the newly created advertisement). -/
def GetOwnerReference (adv : Advertisement) : List OwnerReference :=
  [{ apiVersion := adv.apiVersion, kind := adv.kind, name := adv.meta.name, uid := adv.meta.uid }]

/-- Modelled from the spec: the advertisement API group-version string
(advtypes.GroupVersion lives outside src/). -/
def advGroupVersionStr : String := "sharing.liqo.io/v1alpha1"

/-- SendAdvertisementToForeignCluster (broadcaster.go 313-358).  The store is
deterministic, so the initial get yields the record or not-found; transport
faults of the final secret update (line 348), which in the source may fail
for reasons beyond the store content, are injected through secretUpdateErr.
Update path (lines 320-328): the new content takes the remote object's
metadata, is written, and the previously fetched remote object is what the
function returns.  Create path (lines 329-352): the credential secret must
exist, the advertisement is created, kind and api version are set on the
returned copy, and the ownership update of the secret is attempted; its
failure is only logged. -/
def SendAdvertisementToForeignCluster (b : Broadcaster) (store : RemoteStore)
    (secretUpdateErr : Option StoreError) (advToCreate : Advertisement) :
    Except StoreError (Advertisement × RemoteStore) :=
  match lookupAdv store advToCreate.meta.name with
  | some adv =>
      .ok (adv, updateAdvStore store adv.meta.name { advToCreate with meta := adv.meta })
  | none =>
      match lookupSecret store b.kubeconfigSecretForForeign.meta.name with
      | none => .error .notFound
      | some secretForeign =>
          let created : Advertisement :=
            { advToCreate with kind := "Advertisement", apiVersion := advGroupVersionStr }
          let store1 : RemoteStore := { store with advs := store.advs ++ [advToCreate] }
          let secretOwned : Secret :=
            { secretForeign with
                meta := { secretForeign.meta with ownerReferences := GetOwnerReference created } }
          match secretUpdateErr with
          | some _ => .ok (created, store1)
          | none => .ok (created, updateSecretStore store1 secretForeign.meta.name secretOwned)

/-- The remote store holding no record at all. -/
def emptyStore : RemoteStore where
  advs := []
  secrets := []

/-- C1 counterexample: on the empty remote store, where no advertisement with
the deterministic name exists, NotifyAdvertisementDeletion returns the
not-found error rather than success. -/
theorem notifyAdvertisementDeletion_counterexample :
    NotifyAdvertisementDeletion cBroadcaster emptyStore
      = Except.error StoreError.notFound := by
  rfl

/-- C1 (amended): for every invocation of NotifyAdvertisementDeletion in a
state where no advertisement with the deterministic name exists on the remote
store, the operation returns the not-found error of the remote delete: the
not-found result is propagated as a failure, not treated as success. -/
theorem notifyAdvertisementDeletion_notFound (b : Broadcaster) (store : RemoteStore)
    (h : lookupAdv store (advNamePref ++ b.homeClusterID) = none) :
    NotifyAdvertisementDeletion b store = Except.error StoreError.notFound := by
  simp [NotifyAdvertisementDeletion, deleteAdv, h]

/-- C1 witness: on the empty store the no-advertisement hypothesis holds and
the amended theorem applies, the operation returning the not-found error. -/
theorem notifyAdvertisementDeletion_notFound_witness :
    lookupAdv emptyStore (advNamePref ++ cBroadcaster.homeClusterID) = none
    ∧ NotifyAdvertisementDeletion cBroadcaster emptyStore
        = Except.error StoreError.notFound := by
  refine ⟨rfl, ?_⟩
  exact notifyAdvertisementDeletion_notFound cBroadcaster emptyStore rfl

/-- C10: when SendAdvertisementToForeignCluster takes the update path (an
advertisement already exists remotely under the name being published), the
value returned to the caller is the previously fetched remote advertisement
object — its spec fields carry the old remote content, while the newly
published content is what gets written to the store under the old metadata —
and the returned object's name equals the name that was written. -/
theorem sendAdvertisement_update_returns_old (b : Broadcaster) (store : RemoteStore)
    (secretUpdateErr : Option StoreError) (advToCreate oldAdv : Advertisement)
    (hget : lookupAdv store advToCreate.meta.name = some oldAdv) :
    SendAdvertisementToForeignCluster b store secretUpdateErr advToCreate
      = .ok (oldAdv,
             updateAdvStore store oldAdv.meta.name { advToCreate with meta := oldAdv.meta })
    ∧ oldAdv.meta.name = advToCreate.meta.name := by
  constructor
  · simp [SendAdvertisementToForeignCluster, hget]
  · have hget2 : store.advs.find? (fun a => a.meta.name == advToCreate.meta.name)
        = some oldAdv := hget
    have h := List.find?_some hget2
    simpa using h

/-- The old remote advertisement for the C10 witness: same deterministic name
as the one being published, stale metadata, cpu availability 1. -/
def w10Old : Advertisement where
  kind := ""
  apiVersion := ""
  meta :=
    { name := "adv-home", namespaceName := "", resourceVersion := "v7", uid := "u1",
      ownerReferences := [] }
  spec :=
    { clusterId := "home", images := [], limitRangeLimits := [],
      resourceQuotaHard := fun r => if r = "cpu" then 1 else 0, labels := [],
      neighbors := fun _ => none, prices := [], kubeConfigRefNamespace := "liqo-ns",
      kubeConfigRefName := "vk-secret-home", timestamp := 0, timeToLive := 30 }

/-- The advertisement being published in the C4 and C10 witnesses: the
deterministic name and cpu availability 2. -/
def freshAdv : Advertisement where
  kind := ""
  apiVersion := ""
  meta :=
    { name := "adv-home", namespaceName := "", resourceVersion := "", uid := "",
      ownerReferences := [] }
  spec :=
    { clusterId := "home", images := [], limitRangeLimits := [],
      resourceQuotaHard := fun r => if r = "cpu" then 2 else 0, labels := [],
      neighbors := fun _ => none, prices := [], kubeConfigRefNamespace := "liqo-ns",
      kubeConfigRefName := "vk-secret-home", timestamp := 10, timeToLive := 40 }

/-- The remote store of the C10 witness: the old advertisement and the
credential secret are present. -/
def w10Store : RemoteStore where
  advs := [w10Old]
  secrets := [cSecret]

/-- C10 witness: publishing freshAdv (cpu 2) over the remote w10Old (cpu 1)
returns the old object, whose availability still reads 1 while the published
content reads 2, and whose name matches the published name. -/
theorem sendAdvertisement_update_returns_old_witness :
    lookupAdv w10Store freshAdv.meta.name = some w10Old
    ∧ (SendAdvertisementToForeignCluster cBroadcaster w10Store none freshAdv
        = .ok (w10Old,
               updateAdvStore w10Store w10Old.meta.name { freshAdv with meta := w10Old.meta })
      ∧ w10Old.meta.name = freshAdv.meta.name)
    ∧ w10Old.spec.resourceQuotaHard "cpu" = 1
    ∧ freshAdv.spec.resourceQuotaHard "cpu" = 2 := by
  refine ⟨rfl, ?_, by decide, by decide⟩
  exact sendAdvertisement_update_returns_old cBroadcaster w10Store none freshAdv w10Old rfl

/-- C4: in SendAdvertisementToForeignCluster, when the advertisement is not
found remotely, the credential secret is fetched and the creation succeeds,
but the subsequent update writing the owner reference onto the secret fails,
the operation still returns the created advertisement (kind and api version
set on the returned copy) with no error, and the store keeps the created
advertisement while its secrets are left unchanged. -/
theorem sendAdvertisement_ownership_failure_nonfatal (b : Broadcaster) (store : RemoteStore)
    (e : StoreError) (advToCreate : Advertisement) (sec : Secret)
    (hget : lookupAdv store advToCreate.meta.name = none)
    (hsec : lookupSecret store b.kubeconfigSecretForForeign.meta.name = some sec) :
    SendAdvertisementToForeignCluster b store (some e) advToCreate
      = .ok ({ advToCreate with kind := "Advertisement", apiVersion := advGroupVersionStr },
             { store with advs := store.advs ++ [advToCreate] }) := by
  simp [SendAdvertisementToForeignCluster, hget, hsec]

/-- The remote store of the C4 witness: no advertisement yet, the credential
secret present. -/
def w4Store : RemoteStore where
  advs := []
  secrets := [cSecret]

/-- C4 witness: on a store holding only the credential secret, publishing
freshAdv while the secret ownership update fails with a conflict still
returns the created advertisement and no error. -/
theorem sendAdvertisement_ownership_failure_nonfatal_witness :
    lookupAdv w4Store freshAdv.meta.name = none
    ∧ lookupSecret w4Store cBroadcaster.kubeconfigSecretForForeign.meta.name = some cSecret
    ∧ SendAdvertisementToForeignCluster cBroadcaster w4Store (some StoreError.conflict) freshAdv
        = .ok ({ freshAdv with kind := "Advertisement", apiVersion := advGroupVersionStr },
               { w4Store with advs := w4Store.advs ++ [freshAdv] }) := by
  refine ⟨rfl, rfl, ?_⟩
  exact sendAdvertisement_ownership_failure_nonfatal cBroadcaster w4Store StoreError.conflict
    freshAdv cSecret rfl rfl

/-- The remote-client creation retry loop of StartBroadcaster (broadcaster.go
121-137): up to 3 calls of CreateAdvertisementClient; every failed call logs
and sleeps one minute; a success leaves the loop at once; when the counter
reaches 3 the last error is returned and startup aborts.  The i-th call's
outcome is attempt i; the result carries the final outcome, the number of
calls made and the number of one-minute sleeps taken. -/
def createRemoteClientLoop {E C : Type} (attempt : Nat → Except E C) :
    Except E C × Nat × Nat :=
  match attempt 0 with
  | .ok c => (.ok c, 1, 0)
  | .error _ =>
    match attempt 1 with
    | .ok c => (.ok c, 2, 1)
    | .error _ =>
      match attempt 2 with
      | .ok c => (.ok c, 3, 2)
      | .error e2 => (.error e2, 3, 3)

/-- C8: during startup, creation of the client to the remote cluster is
attempted at most 3 times, a one-minute pause follows each failed attempt,
and when all attempts fail the loop ends after exactly 3 attempts and 3
pauses with the outcome of the last attempt — its error — which
StartBroadcaster returns instead of proceeding. -/
theorem startBroadcaster_client_retry {E C : Type} (attempt : Nat → Except E C)
    (hfail : ∀ i, i < 3 → ∃ e, attempt i = .error e) :
    (createRemoteClientLoop attempt).1 = attempt 2
    ∧ (createRemoteClientLoop attempt).2.1 = 3
    ∧ (createRemoteClientLoop attempt).2.2 = 3
    ∧ ∀ att : Nat → Except E C, (createRemoteClientLoop att).2.1 ≤ 3 := by
  obtain ⟨e0, h0⟩ := hfail 0 (by omega)
  obtain ⟨e1, h1⟩ := hfail 1 (by omega)
  obtain ⟨e2, h2⟩ := hfail 2 (by omega)
  refine ⟨?_, ?_, ?_, ?_⟩
  · simp [createRemoteClientLoop, h0, h1, h2]
  · simp [createRemoteClientLoop, h0, h1, h2]
  · simp [createRemoteClientLoop, h0, h1, h2]
  · intro att
    rcases hA : att 0 with eA | cA
    · rcases hB : att 1 with eB | cB
      · rcases hC : att 2 with eC | cC
        · simp [createRemoteClientLoop, hA, hB, hC]
        · simp [createRemoteClientLoop, hA, hB, hC]
      · simp [createRemoteClientLoop, hA, hB]
    · simp [createRemoteClientLoop, hA]

/-- C8 witness: with every attempt failing with the same error, the
hypothesis holds and the loop makes exactly 3 attempts, sleeps 3 times and
returns the last error. -/
theorem startBroadcaster_client_retry_witness :
    (∀ i, i < 3 → ∃ e, (fun _ : Nat => (Except.error "no route" : Except String Unit)) i
        = .error e)
    ∧ (createRemoteClientLoop (fun _ : Nat => (Except.error "no route" : Except String Unit))).1
        = Except.error "no route"
    ∧ (createRemoteClientLoop (fun _ : Nat => (Except.error "no route" : Except String Unit))).2.1
        = 3
    ∧ (createRemoteClientLoop (fun _ : Nat => (Except.error "no route" : Except String Unit))).2.2
        = 3 := by
  have h := startBroadcaster_client_retry
    (fun _ : Nat => (Except.error "no route" : Except String Unit))
    (fun i _ => ⟨"no route", rfl⟩)
  exact ⟨fun i _ => ⟨"no route", rfl⟩, h.1, h.2.1, h.2.2.1⟩

/-- The observable outcome of one iteration of the GenerateAdvertisement
loop: whether the secret publication, the resource computation and the
advertisement publication succeeded (broadcaster.go 190-211); a failure of
any step makes the iteration sleep one minute and continue, never reaching
the once-guarded watch start. -/
structure TickOutcome where
  secretOk : Bool
  resourcesOk : Bool
  advOk : Bool

/-- An iteration reaches the watch-start statement exactly when all three
steps succeeded. -/
def tickSuccess (t : TickOutcome) : Bool := t.secretOk && t.resourcesOk && t.advOk

/-- The once-latch state of the GenerateAdvertisement loop: whether
sync.Once has fired and how many times WatchAdvertisement was launched. -/
structure LoopState where
  watchStarted : Bool
  watchStarts : Nat

/-- One iteration of GenerateAdvertisement (broadcaster.go 189-219) acting
on the latch state: on a fully successful tick the loop calls
once.Do(WatchAdvertisement), which runs its body only when the latch has not
fired yet; on a failed tick the iteration continues before reaching the
latch. -/
def generateAdvertisementStep (s : LoopState) (t : TickOutcome) : LoopState :=
  if tickSuccess t then
    if s.watchStarted then s
    else { watchStarted := true, watchStarts := s.watchStarts + 1 }
  else s

/-- The GenerateAdvertisement loop run over a finite trace of tick outcomes,
starting from the fresh sync.Once latch. -/
def GenerateAdvertisementRun (ticks : List TickOutcome) : LoopState :=
  ticks.foldl generateAdvertisementStep { watchStarted := false, watchStarts := 0 }

theorem generateAdvertisement_aux (ticks : List TickOutcome) (s : LoopState) :
    ((ticks.foldl generateAdvertisementStep s).watchStarts
        = s.watchStarts
          + (if !s.watchStarted && ticks.any (fun t => tickSuccess t) then 1 else 0))
    ∧ ((ticks.foldl generateAdvertisementStep s).watchStarted
        = (s.watchStarted || ticks.any (fun t => tickSuccess t))) := by
  induction ticks generalizing s with
  | nil => simp
  | cons t ts ih =>
      simp only [List.foldl_cons, List.any_cons]
      by_cases h1 : tickSuccess t
      · by_cases h2 : s.watchStarted
        · have h := ih s
          simp [generateAdvertisementStep, h1, h2, h.1, h.2]
        · have h := ih { watchStarted := true, watchStarts := s.watchStarts + 1 }
          simp only [generateAdvertisementStep, h1, if_true, h2, if_false] at *
          simp [h.1, h.2, h1, h2]
      · have h := ih s
        simp [generateAdvertisementStep, h1, h.1, h.2]

/-- C9: across every finite execution trace of the GenerateAdvertisement
control loop, WatchAdvertisement is launched at most once; it is launched
exactly when some iteration publishes successfully (the latch count is 1 if
any tick fully succeeded and 0 otherwise), and the latch is set exactly in
that case, so every later start attempt is a no-op. -/
theorem generateAdvertisement_watch_started_once (ticks : List TickOutcome) :
    (GenerateAdvertisementRun ticks).watchStarts ≤ 1
    ∧ (GenerateAdvertisementRun ticks).watchStarts
        = (if ticks.any (fun t => tickSuccess t) then 1 else 0)
    ∧ (GenerateAdvertisementRun ticks).watchStarted = ticks.any (fun t => tickSuccess t) := by
  have h := generateAdvertisement_aux ticks { watchStarted := false, watchStarts := 0 }
  unfold GenerateAdvertisementRun
  refine ⟨?_, ?_, ?_⟩
  · rw [h.1]
    split <;> simp
  · rw [h.1]
    simp
  · rw [h.2]
    simp
